import Mathlib

/-!
Verification development for the crystal filter middleware
(`crystal_filter_control.py` and `handlers/base.py`).

The Python code is shallowly embedded: dicts become association lists,
the body streams become a symbolic inductive type recording which engine
produced them, exceptions become `Except`, and the two execution-engine
calls (`storlet_gw.execute_storlet` and `native_filter.execute`) become
symbolic stream constructors, since the engines themselves are external
collaborators.
-/

namespace CrystalFilter

/-- One configured filter instance: the fields of a `filter_data` dict that
`crystal_filter_control.py` and `handlers/base.py` read
(`execution_server`, `type`, `main`, `when`). -/
structure FilterData where
  execution_server : String
  type : String
  main : String
  when : String
  deriving DecidableEq, Repr

/-- Symbolic body streams.  `source` is an original WSGI input or response
iterator object; `noInput` is the Python `None` that `app_iter` is initialized
to in `execute_filters`; `storletOut f s` is the stream returned by
`storlet_gw.execute_storlet(req_resp, f, s)` and `nativeOut f s` the stream
returned by a native filter's `execute(req_resp, s, requets_data)`. -/
inductive FStream where
  | source (id : Nat)
  | noInput
  | storletOut (f : FilterData) (prev : FStream)
  | nativeOut (f : FilterData) (prev : FStream)
  deriving DecidableEq, Repr

/-- A header value: either a plain string or the JSON-object encoding that
`json.dumps` produces for a delegation dict.  `json.dumps` turns a dict with
integer keys into a JSON object whose keys are the decimal string forms of
those integers and whose values encode the filter fields one for one; the
`json` constructor models the header value at that structural level. -/
inductive HeaderVal where
  | str (s : String)
  | json (entries : List (String × FilterData))
  deriving DecidableEq, Repr

/-- The request/response object as `execute_filters` and the hooks touch it:
`isRequest` distinguishes `swob.Request` from a response, `headers` is the
headers dict, `wsgi_input` is `environ[&wsgi.input&]` (the request input
stream), `app_iter` is the response output iterator, and `content_length`
is the `CONTENT_LENGTH` environ entry (`none` when absent). -/
structure ReqResp where
  isRequest : Bool
  headers : List (String × HeaderVal)
  wsgi_input : FStream
  app_iter : FStream
  content_length : Option String
  deriving DecidableEq, Repr

/-- Dict read `d[k]` on the association-list model of a Python dict. -/
def dictGet (k : Nat) : List (Nat × FilterData) → Option FilterData
  | [] => none
  | (k0, v) :: t => if k0 = k then some v else dictGet k t

/-- Header dict read `headers[k]` (`none` when the key is absent). -/
def headerGet : List (String × HeaderVal) → String → Option HeaderVal
  | [], _ => none
  | (k0, v) :: t, k => if k0 = k then some v else headerGet t k

/-- Header dict write `headers[k] = v`: replaces any existing binding. -/
def setHeader (hs : List (String × HeaderVal)) (k : String) (v : HeaderVal) :
    List (String × HeaderVal) :=
  (k, v) :: hs.filter (fun p => p.1 != k)

/-- The key iteration order `sorted(filter_exec_list)`: the dict's keys in ascending order; this is
the iteration order of the loop in `execute_filters`. -/
def sortedKeys (l : List (Nat × FilterData)) : List Nat :=
  List.insertionSort (fun a b => a ≤ b) (l.map Prod.fst)

/-- The mutable locals of the `execute_filters` loop
(`on_other_server`, `filter_executed`, `app_iter`), plus a ghost `trace`
recording, in order, the `(key, filter_data)` entries whose execution engine
was invoked. -/
structure ExecState where
  on_other_server : List (Nat × FilterData)
  filter_executed : Bool
  app_iter : FStream
  trace : List (Nat × FilterData)
  deriving DecidableEq, Repr

/-- One iteration of the `execute_filters` loop body for `(key, filter_data)`:
if the filter's `execution_server` is the local server, invoke the storlet
gateway or the native engine (rebinding `app_iter` to its output and setting
`filter_executed`); otherwise record the entry in `on_other_server`.
The storlet-gateway memoisation (`if not storlet_gw: ...`) only caches the
gateway object and has no effect on the stream or the partition. -/
def execStep (server : String) (st : ExecState) (key : Nat)
    (filter_data : FilterData) : ExecState :=
  if filter_data.execution_server = server then
    if filter_data.type = "storlet" then
      { st with app_iter := FStream.storletOut filter_data st.app_iter,
                filter_executed := true,
                trace := st.trace ++ [(key, filter_data)] }
    else
      { st with app_iter := FStream.nativeOut filter_data st.app_iter,
                filter_executed := true,
                trace := st.trace ++ [(key, filter_data)] }
  else
    { st with on_other_server := st.on_other_server ++ [(key, filter_data)] }

/-- The `for key in sorted(filter_exec_list)` loop: iterate the given keys,
reading `filter_exec_list[key]` for each.  The `none` branch of the lookup is
unreachable when the keys are the dict's own keys. -/
def execLoop (server : String) (filter_exec_list : List (Nat × FilterData)) :
    List Nat → ExecState → ExecState
  | [], st => st
  | key :: ks, st =>
    match dictGet key filter_exec_list with
    | some filter_data =>
        execLoop server filter_exec_list ks (execStep server st key filter_data)
    | none => execLoop server filter_exec_list ks st

/-- The state of the `execute_filters` locals after the loop, starting from
`on_other_server = dict()`, `filter_executed = False`, `app_iter = None`. -/
def execRun (server : String) (filter_exec_list : List (Nat × FilterData)) :
    ExecState :=
  execLoop server filter_exec_list (sortedKeys filter_exec_list)
    ⟨[], false, FStream.noInput, []⟩

/-- The encoding `json.dumps(on_other_server)`: a JSON object whose keys are the decimal
strings of the ordering keys and whose values carry the filter fields. -/
def encodeDelegation (m : List (Nat × FilterData)) : HeaderVal :=
  HeaderVal.json (m.map (fun kf => (Nat.repr kf.1, kf.2)))

/-- The controller method `CrystalFilterControl.execute_filters`: run the loop over the sorted keys,
then (1) if `on_other_server` is non-empty, set the `CRYSTAL-FILTERS` header
to its JSON encoding; (2) if some filter executed, install the final
`app_iter` as `environ[&wsgi.input&]` for a Request and as `.app_iter`
otherwise; return the (mutated) object.  The second component is the ghost
trace of engine invocations. -/
def execute_filters (server : String) (req_resp : ReqResp)
    (filter_exec_list : List (Nat × FilterData)) :
    ReqResp × List (Nat × FilterData) :=
  let st := execRun server filter_exec_list
  let rr1 :=
    if st.on_other_server ≠ [] then
      { req_resp with
        headers := setHeader req_resp.headers "CRYSTAL-FILTERS"
          (encodeDelegation st.on_other_server) }
    else req_resp
  let rr2 :=
    if st.filter_executed then
      if rr1.isRequest then { rr1 with wsgi_input := st.app_iter }
      else { rr1 with app_iter := st.app_iter }
    else rr1
  (rr2, st.trace)

/-- The method `CrystalFilterControl.execute_filters` with fallible engines: the same
control flow, with both engine calls represented by `engine`, which may raise
(Python exceptions become `Except.error`).  The controller has no
`try/except`, so an engine error ends the loop and is returned to the caller
exactly as the engine produced it. -/
def execLoopE {ε : Type} (engine : FilterData → FStream → Except ε FStream)
    (server : String) (filter_exec_list : List (Nat × FilterData)) :
    List Nat → ExecState → Except ε ExecState
  | [], st => Except.ok st
  | key :: ks, st =>
    match dictGet key filter_exec_list with
    | some filter_data =>
        if filter_data.execution_server = server then
          match engine filter_data st.app_iter with
          | Except.ok out =>
              execLoopE engine server filter_exec_list ks
                { st with app_iter := out, filter_executed := true,
                          trace := st.trace ++ [(key, filter_data)] }
          | Except.error e => Except.error e
        else
          execLoopE engine server filter_exec_list ks
            { st with on_other_server := st.on_other_server ++ [(key, filter_data)] }
    | none => execLoopE engine server filter_exec_list ks st

/-- Run the fallible-engine loop from the initial locals of
`execute_filters`. -/
def execRunE {ε : Type} (engine : FilterData → FStream → Except ε FStream)
    (server : String) (filter_exec_list : List (Nat × FilterData)) :
    Except ε ExecState :=
  execLoopE engine server filter_exec_list (sortedKeys filter_exec_list)
    ⟨[], false, FStream.noInput, []⟩

section Handler

/-- The fields of `CrystalBaseHandler` that the hooks and the eligibility
predicate read: the held request, the configured execution server, the three
reserved container names (`storlet_container`, `storlet_dependency`,
`storlet_images`) and the parsed `container`/`obj` path components. -/
structure Handler where
  request : ReqResp
  server : String
  storlet_container : String
  storlet_dependency : String
  storlet_images : String
  container : String
  obj : String
  deriving DecidableEq, Repr

/-- The list `self.sds_containers`: the three reserved system containers from the
configuration. -/
def sds_containers (h : Handler) : List String :=
  [h.storlet_container, h.storlet_dependency, h.storlet_images]

/-- The predicate `CrystalBaseHandler.is_crystal_valid_request`.  On the proxy tier the
account lookup result (`is_account_storlet_enabled`, an external metadata
call) is a parameter; on any other tier `storlet_enabled` is `True`.
Python truthiness of `self.obj` becomes the non-emptiness test. -/
def is_crystal_valid_request (h : Handler) (account_storlet_enabled : Bool) :
    Bool :=
  let storlet_enabled :=
    if h.server = "proxy" then account_storlet_enabled else true
  let crystal_container := (sds_containers h).contains h.container
  !crystal_container && h.obj != "" && storlet_enabled

/-- The hook `CrystalBaseHandler.apply_filters_on_pre_get`: select the entries with
`when == on_pre_get`; if any, call the filter control on the request.  The
return value is discarded in the source, but `execute_filters` mutates the
request in place and returns that same object, so its mutations remain on the
handler's request. -/
def apply_filters_on_pre_get (h : Handler)
    (filter_list : List (Nat × FilterData)) : Handler :=
  let filtered_filter_list :=
    filter_list.filter (fun kf => kf.2.when == "on_pre_get")
  if filtered_filter_list ≠ [] then
    { h with request := (execute_filters h.server h.request filtered_filter_list).1 }
  else h

/-- The hook `CrystalBaseHandler.apply_filters_on_post_get`: select the entries with
`when == on_post_get`; if any, call the filter control on the response and
return the result, else return the response unchanged. -/
def apply_filters_on_post_get (h : Handler) (resp : ReqResp)
    (filter_list : List (Nat × FilterData)) : ReqResp :=
  let filtered_filter_list :=
    filter_list.filter (fun kf => kf.2.when == "on_post_get")
  if filtered_filter_list ≠ [] then
    (execute_filters h.server resp filtered_filter_list).1
  else resp

/-- The hook `CrystalBaseHandler.apply_filters_on_pre_put`: select the entries with
`when == on_pre_put`; if any, call the filter control on the request, store
the returned request, pop `CONTENT_LENGTH` from the environ when present
(modelled as setting the field to `none`), and set the `Transfer-Encoding`
header to `chunked`.  (The source routes the stored request through the
`request` property setter, which re-parses the same, already parsed path.) -/
def apply_filters_on_pre_put (h : Handler)
    (filter_list : List (Nat × FilterData)) : Handler :=
  let filtered_filter_list :=
    filter_list.filter (fun kf => kf.2.when == "on_pre_put")
  if filtered_filter_list ≠ [] then
    let req := (execute_filters h.server h.request filtered_filter_list).1
    let req := { req with content_length := none }
    let req :=
      { req with headers :=
          (setHeader req.headers "Transfer-Encoding" (HeaderVal.str "chunked")) }
    { h with request := req }
  else h

end Handler

section RequestProperty

/-- A request as the `request` property setter sees it: an object carrying a
path that `_parse_vaco` may or may not be able to parse. -/
structure PathReq where
  path : String
  deriving DecidableEq, Repr

/-- The `self._request` / `self._api_version` / `self._account` /
`self._container` / `self._obj` fields tied together by
`_request_instance_property`. -/
structure HandlerVars where
  _request : PathReq
  _api_version : String
  _account : String
  _container : String
  _obj : String
  deriving DecidableEq, Repr

/-- The property setter from `_request_instance_property` combined with
`_extract_vaco`: assign `self._request = request` first, then run
`self._parse_vaco()` (the tier-specific grammar, abstracted as `parse`;
`none` is a `ValueError`).  On success the four vars are assigned from the
parse tuple in one step; on failure `NotCrystalRequest` is raised (the `true`
flag) — but `self._request` has already been reassigned.  The returned state
is the handler's state afterwards, in both cases. -/
def request_setter
    (parse : PathReq → Option (String × String × String × String))
    (st : HandlerVars) (request : PathReq) : HandlerVars × Bool :=
  let st1 := { st with _request := request }
  match parse request with
  | some (v, a, c, o) =>
      ({ st1 with _api_version := v, _account := a, _container := c, _obj := o },
       false)
  | none => (st1, true)

end RequestProperty

/-- The numeric value of a decimal digit character, `none` otherwise. -/
def digitToNat (c : Char) : Option Nat :=
  if c = '0' then some 0 else if c = '1' then some 1 else if c = '2' then some 2
  else if c = '3' then some 3 else if c = '4' then some 4 else if c = '5' then some 5
  else if c = '6' then some 6 else if c = '7' then some 7 else if c = '8' then some 8
  else if c = '9' then some 9 else none

/-- Parse a run of decimal digits into a natural number. -/
def parseDigitsAux : List Char → Nat → Option Nat
  | [], acc => some acc
  | c :: cs, acc =>
    match digitToNat c with
    | some d => parseDigitsAux cs (acc * 10 + d)
    | none => none

/-- Parse the decimal string form of an ordering key back to the key. -/
def parseOrderingKey (s : String) : Option Nat :=
  if s.data = [] then none else parseDigitsAux s.data 0

/-- Modelled from the spec: the peer tier's controller consumes the
delegation header and re-resolves it into its own filter set — the decoding
side of the `CRYSTAL-FILTERS` wire contract, whose consumer is not part of
this repository.  Per the spec, the header value is a structured encoding of
the ordering-key-to-filter mapping, so decoding parses each JSON-object key
back to its ordering key and keeps the filter fields. -/
def decodeDelegation : HeaderVal → Option (List (Nat × FilterData))
  | HeaderVal.json entries =>
      entries.mapM (fun sf => (parseOrderingKey sf.1).map (fun n => (n, sf.2)))
  | HeaderVal.str _ => none

section Auxiliary

/-- The test `filter_data[&execution_server&] == self.server` of the loop,
as a Boolean predicate on `(key, filter_data)` entries. -/
def isLocal (server : String) (kf : Nat × FilterData) : Bool :=
  decide (kf.2.execution_server = server)

/-- The entries visited when iterating the keys `ks` and reading
`filter_exec_list[key]` for each (keys missing from the dict are skipped;
none are missing when `ks` are the dict's own keys). -/
def entries (l : List (Nat × FilterData)) (ks : List Nat) :
    List (Nat × FilterData) :=
  ks.filterMap (fun k => (dictGet k l).map (fun v => (k, v)))

/-- The composed stream obtained by threading `app_iter` through the engine
invocations for the given entries, in order: each entry rebinds the stream to
its engine's output, the storlet gateway for `type == storlet` and the native
engine otherwise. -/
def chainStreams (s : FStream) (fs : List (Nat × FilterData)) : FStream :=
  fs.foldl
    (fun s2 kf =>
      if kf.2.type = "storlet" then FStream.storletOut kf.2 s2
      else FStream.nativeOut kf.2 s2) s

/-- The fallible-engine variant of `execute_filters`: run the loop; if an
engine raised, the exception leaves `execute_filters` before the delegation
header or the body stream is attached, so only the error is returned;
otherwise finish exactly as `execute_filters` does. -/
def execute_filters_exc {ε : Type}
    (engine : FilterData → FStream → Except ε FStream) (server : String)
    (req_resp : ReqResp) (filter_exec_list : List (Nat × FilterData)) :
    Except ε (ReqResp × List (Nat × FilterData)) :=
  match execRunE engine server filter_exec_list with
  | Except.error e => Except.error e
  | Except.ok st =>
    let rr1 :=
      if st.on_other_server ≠ [] then
        { req_resp with
          headers := setHeader req_resp.headers "CRYSTAL-FILTERS"
            (encodeDelegation st.on_other_server) }
      else req_resp
    let rr2 :=
      if st.filter_executed then
        if rr1.isRequest then { rr1 with wsgi_input := st.app_iter }
        else { rr1 with app_iter := st.app_iter }
      else rr1
    Except.ok (rr2, st.trace)

end Auxiliary

section Examples

/-- A storlet filter owned by the proxy tier. -/
def exFilterLocal : FilterData :=
  ⟨"proxy", "storlet", "mypkg.Compress", "on_pre_put"⟩

/-- A native filter owned by the proxy tier, with a different entry point. -/
def exFilterLocal2 : FilterData :=
  ⟨"proxy", "native", "other.Encrypt", "on_pre_put"⟩

/-- A storlet filter owned by the object tier. -/
def exFilterRemote : FilterData :=
  ⟨"object", "storlet", "mypkg.Audit", "on_pre_put"⟩

/-- A request-shaped object with a known content length. -/
def exReq : ReqResp :=
  ⟨true, [("Content-Type", HeaderVal.str "text/plain")],
   FStream.source 0, FStream.source 1, some "42"⟩

/-- A response-shaped object. -/
def exResp : ReqResp :=
  ⟨false, [], FStream.source 2, FStream.source 3, none⟩

/-- A proxy-tier handler holding `exReq`, with the three reserved containers
configured and a request targeting container `photos`, object `obj1`. -/
def exHandler : Handler :=
  ⟨exReq, "proxy", "storlet", "dependency", "docker_images", "photos", "obj1"⟩

/-- An engine that always raises, with an error value that does not mention
the filter it was invoked for. -/
def exFailEngine : FilterData → FStream → Except String FStream :=
  fun _ _ => Except.error "boom"

/-- A concrete `_parse_vaco` grammar that parses exactly one path. -/
def parseVacoEx : PathReq → Option (String × String × String × String) :=
  fun r =>
    if r.path = "/v1/AUTH_a/c/o" then some ("v1", "AUTH_a", "c", "o") else none

/-- Handler vars consistent with the parseable path. -/
def exVars : HandlerVars := ⟨⟨"/v1/AUTH_a/c/o"⟩, "v1", "AUTH_a", "c", "o"⟩

/-- A request whose path `parseVacoEx` rejects. -/
def exBadReq : PathReq := ⟨"/bad"⟩

/-- A proxy-tier handler whose request targets the reserved filter-binary
container. -/
def exHandlerReserved : Handler :=
  ⟨exReq, "proxy", "storlet", "dependency", "docker_images", "storlet", "obj1"⟩

/-- An object-tier handler whose request has an empty object component. -/
def exHandlerNoObj : Handler :=
  ⟨exReq, "object", "storlet", "dependency", "docker_images", "photos", ""⟩

end Examples

/-! ### Dictionary lemmas -/

theorem dictGet_mem : ∀ {l : List (Nat × FilterData)} {k : Nat} {v : FilterData},
    dictGet k l = some v → (k, v) ∈ l
  | [], _, _, h => by simp [dictGet] at h
  | (k0, v0) :: t, k, v, h => by
    by_cases hk : k0 = k
    · subst hk
      simp [dictGet] at h
      subst h
      exact List.mem_cons_self _ _
    · simp only [dictGet, if_neg hk] at h
      exact List.mem_cons_of_mem _ (dictGet_mem h)

theorem mem_dictGet : ∀ {l : List (Nat × FilterData)} {k : Nat} {v : FilterData},
    (l.map Prod.fst).Nodup → (k, v) ∈ l → dictGet k l = some v
  | (k0, v0) :: t, k, v, hnd, hm => by
    have hnd2 : (k0 :: t.map Prod.fst).Nodup := by simpa using hnd
    have hcons := List.nodup_cons.1 hnd2
    rcases List.mem_cons.1 hm with h | h
    · rw [Prod.mk.injEq] at h
      obtain ⟨h1, h2⟩ := h
      subst h1; subst h2
      simp [dictGet]
    · have hk : k0 ≠ k := by
        intro he
        subst he
        exact hcons.1 (List.mem_map.2 ⟨(k0, v), h, rfl⟩)
      simp only [dictGet, if_neg hk]
      exact mem_dictGet hcons.2 h

theorem dictGet_eq_none : ∀ {l : List (Nat × FilterData)} {k : Nat},
    dictGet k l = none ↔ k ∉ l.map Prod.fst
  | [], k => by simp [dictGet]
  | (k0, v0) :: t, k => by
    by_cases hk : k0 = k
    · subst hk
      simp [dictGet]
    · simp only [dictGet, if_neg hk, List.map_cons, List.mem_cons]
      rw [dictGet_eq_none]
      constructor
      · intro h hc
        rcases hc with hc | hc
        · exact hk hc.symm
        · exact h hc
      · intro h hc
        exact h (Or.inr hc)

theorem dictGet_perm {l1 l2 : List (Nat × FilterData)}
    (hnd : (l1.map Prod.fst).Nodup) (hp : l1.Perm l2) (k : Nat) :
    dictGet k l1 = dictGet k l2 := by
  cases h1 : dictGet k l1 with
  | some v =>
    have hm : (k, v) ∈ l2 := hp.mem_iff.1 (dictGet_mem h1)
    have hnd2 : (l2.map Prod.fst).Nodup := ((hp.map Prod.fst).nodup_iff).1 hnd
    exact (mem_dictGet hnd2 hm).symm
  | none =>
    have hnot : k ∉ l2.map Prod.fst := fun hm =>
      (dictGet_eq_none.1 h1) (((hp.map Prod.fst).mem_iff).2 hm)
    exact (dictGet_eq_none.2 hnot).symm

theorem headerGet_setHeader_self (hs : List (String × HeaderVal)) (k : String)
    (v : HeaderVal) : headerGet (setHeader hs k v) k = some v := by
  simp [headerGet, setHeader]

/-! ### Entries lemmas -/

theorem entries_congr : ∀ {ks : List Nat} {l1 l2 : List (Nat × FilterData)},
    (∀ k ∈ ks, dictGet k l1 = dictGet k l2) → entries l1 ks = entries l2 ks
  | [], _, _, _ => rfl
  | k :: ks, l1, l2, h => by
    have ht : entries l1 ks = entries l2 ks :=
      entries_congr (fun k2 hk2 => h k2 (List.mem_cons_of_mem _ hk2))
    simp only [entries, List.filterMap_cons] at ht ⊢
    rw [h k (List.mem_cons_self _ _), ht]

theorem entries_self : ∀ {l : List (Nat × FilterData)},
    (l.map Prod.fst).Nodup → entries l (l.map Prod.fst) = l
  | [], _ => rfl
  | (k, v) :: t, hnd => by
    have hnd2 : (k :: t.map Prod.fst).Nodup := by simpa using hnd
    have hcons := List.nodup_cons.1 hnd2
    have hstep : ∀ k2 ∈ t.map Prod.fst,
        dictGet k2 ((k, v) :: t) = dictGet k2 t := by
      intro k2 hk2
      have hk : k ≠ k2 := fun he => hcons.1 (he ▸ hk2)
      simp [dictGet, hk]
    have hcg : entries ((k, v) :: t) (t.map Prod.fst) = entries t (t.map Prod.fst) :=
      entries_congr hstep
    have hself : entries t (t.map Prod.fst) = t := entries_self hcons.2
    have hf : (fun k2 => Option.map (fun v2 => (k2, v2)) (dictGet k2 ((k, v) :: t))) k
        = some (k, v) := by simp [dictGet]
    have h0 : entries ((k, v) :: t) (k :: t.map Prod.fst)
        = (k, v) :: entries ((k, v) :: t) (t.map Prod.fst) :=
      List.filterMap_cons_some hf
    simp only [List.map_cons]
    rw [h0, hcg, hself]

theorem entries_sortedKeys_perm {l : List (Nat × FilterData)}
    (hnd : (l.map Prod.fst).Nodup) : (entries l (sortedKeys l)).Perm l := by
  have h1 : (sortedKeys l).Perm (l.map Prod.fst) := List.perm_insertionSort _ _
  have h2 : (entries l (sortedKeys l)).Perm (entries l (l.map Prod.fst)) :=
    List.Perm.filterMap _ h1
  rw [entries_self hnd] at h2
  exact h2

theorem entries_keys_sublist (l : List (Nat × FilterData)) :
    ∀ ks : List Nat, ((entries l ks).map Prod.fst).Sublist ks
  | [] => by simp [entries]
  | k :: ks => by
    cases hd : dictGet k l with
    | none =>
      have hf : (fun k2 => Option.map (fun v2 => (k2, v2)) (dictGet k2 l)) k
          = none := by simp [hd]
      have h0 : entries l (k :: ks) = entries l ks :=
        List.filterMap_cons_none hf
      rw [h0]
      exact List.Sublist.cons _ (entries_keys_sublist l ks)
    | some v =>
      have hf : (fun k2 => Option.map (fun v2 => (k2, v2)) (dictGet k2 l)) k
          = some (k, v) := by simp [hd]
      have h0 : entries l (k :: ks) = (k, v) :: entries l ks :=
        List.filterMap_cons_some hf
      rw [h0, List.map_cons]
      exact List.Sublist.cons₂ _ (entries_keys_sublist l ks)

theorem entries_mem {l : List (Nat × FilterData)} {ks : List Nat}
    {kf : Nat × FilterData} (h : kf ∈ entries l ks) : kf ∈ l := by
  simp only [entries, List.mem_filterMap] at h
  obtain ⟨k, _, hk⟩ := h
  cases hd : dictGet k l with
  | none => rw [hd] at hk; simp at hk
  | some v =>
    rw [hd] at hk
    simp only [Option.map_some', Option.some.injEq] at hk
    subst hk
    exact dictGet_mem hd

/-! ### The loop invariant of execute_filters -/

theorem execLoop_eq (server : String) (l : List (Nat × FilterData)) :
    ∀ (ks : List Nat) (st : ExecState),
    execLoop server l ks st =
      { on_other_server :=
          st.on_other_server ++
            (entries l ks).filter (fun kf => !isLocal server kf),
        filter_executed :=
          st.filter_executed || !((entries l ks).filter (isLocal server)).isEmpty,
        app_iter :=
          chainStreams st.app_iter ((entries l ks).filter (isLocal server)),
        trace := st.trace ++ (entries l ks).filter (isLocal server) } := by
  intro ks
  induction ks with
  | nil => intro st; simp [execLoop, entries, chainStreams]
  | cons key ks ih =>
    intro st
    cases hd : dictGet key l with
    | none =>
      simp only [execLoop, hd]
      rw [ih st]
      simp [entries, hd]
    | some fd =>
      simp only [execLoop, hd]
      by_cases hs : fd.execution_server = server
      · by_cases ht : fd.type = "storlet"
        · simp only [execStep, if_pos hs, if_pos ht]
          rw [ih]
          simp [entries, hd, isLocal, hs, chainStreams, ht]
        · simp only [execStep, if_pos hs, if_neg ht]
          rw [ih]
          simp [entries, hd, isLocal, hs, chainStreams, ht]
      · simp only [execStep, if_neg hs]
        rw [ih]
        simp [entries, hd, isLocal, hs, chainStreams]

theorem execRun_eq (server : String) (l : List (Nat × FilterData)) :
    execRun server l =
      { on_other_server :=
          (entries l (sortedKeys l)).filter (fun kf => !isLocal server kf),
        filter_executed :=
          !((entries l (sortedKeys l)).filter (isLocal server)).isEmpty,
        app_iter :=
          chainStreams FStream.noInput
            ((entries l (sortedKeys l)).filter (isLocal server)),
        trace := (entries l (sortedKeys l)).filter (isLocal server) } := by
  rw [execRun, execLoop_eq]
  simp

/-! ### Sorted-keys lemmas -/

theorem sortedKeys_sorted (l : List (Nat × FilterData)) :
    List.Sorted (fun a b => a ≤ b) (sortedKeys l) :=
  List.sorted_insertionSort _ _

theorem sortedKeys_nodup {l : List (Nat × FilterData)}
    (hnd : (l.map Prod.fst).Nodup) : (sortedKeys l).Nodup :=
  (List.perm_insertionSort _ _).nodup_iff.2 hnd

theorem sortedKeys_eq_of_perm {l1 l2 : List (Nat × FilterData)}
    (hp : l1.Perm l2) : sortedKeys l1 = sortedKeys l2 :=
  List.eq_of_perm_of_sorted
    ((List.perm_insertionSort _ _).trans
      ((hp.map Prod.fst).trans (List.perm_insertionSort _ _).symm))
    (List.sorted_insertionSort _ _) (List.sorted_insertionSort _ _)

/-- The result of the loop depends on the filter dict only through its
key-to-value mapping: two association lists representing the same dict give
the same final state. -/
theorem execRun_eq_of_perm {server : String} {l1 l2 : List (Nat × FilterData)}
    (hnd : (l1.map Prod.fst).Nodup) (hp : l1.Perm l2) :
    execRun server l1 = execRun server l2 := by
  rw [execRun_eq, execRun_eq]
  have hk : sortedKeys l1 = sortedKeys l2 := sortedKeys_eq_of_perm hp
  have he : entries l1 (sortedKeys l1) = entries l2 (sortedKeys l2) := by
    rw [hk]
    exact entries_congr (fun k _ => dictGet_perm hnd hp k)
  rw [he]

/-- The keys of the locally executed entries appear in strictly ascending
order. -/
theorem trace_pairwise {server : String} {l : List (Nat × FilterData)}
    (hnd : (l.map Prod.fst).Nodup) :
    List.Pairwise (fun a b : Nat × FilterData => a.1 < b.1)
      ((entries l (sortedKeys l)).filter (isLocal server)) := by
  have h1 : List.Sorted (fun a b : Nat => a < b) (sortedKeys l) :=
    (sortedKeys_sorted l).lt_of_le (sortedKeys_nodup hnd)
  have h2 : (((entries l (sortedKeys l)).filter (isLocal server)).map
      Prod.fst).Sublist (sortedKeys l) :=
    ((List.Sublist.map Prod.fst
        (List.filter_sublist _)).trans (entries_keys_sublist l _))
  exact List.pairwise_map.1 (List.Pairwise.sublist h2 h1)

/-! ### Structure of the execute_filters result -/

theorem execute_filters_headers (server : String) (rr : ReqResp)
    (l : List (Nat × FilterData)) :
    ((execute_filters server rr l).1).headers =
      (if (execRun server l).on_other_server ≠ [] then
        setHeader rr.headers "CRYSTAL-FILTERS"
          (encodeDelegation (execRun server l).on_other_server)
      else rr.headers) := by
  simp only [execute_filters]
  by_cases h1 : (execRun server l).on_other_server ≠ [] <;>
    by_cases h2 : (execRun server l).filter_executed <;>
      by_cases h3 : rr.isRequest <;> simp [h1, h2, h3]

theorem execute_filters_wsgi_input (server : String) (rr : ReqResp)
    (l : List (Nat × FilterData)) :
    ((execute_filters server rr l).1).wsgi_input =
      (if (execRun server l).filter_executed = true ∧ rr.isRequest = true then
        (execRun server l).app_iter
      else rr.wsgi_input) := by
  simp only [execute_filters]
  by_cases h1 : (execRun server l).on_other_server ≠ [] <;>
    by_cases h2 : (execRun server l).filter_executed <;>
      by_cases h3 : rr.isRequest <;> simp [h1, h2, h3]

theorem execute_filters_app_iter (server : String) (rr : ReqResp)
    (l : List (Nat × FilterData)) :
    ((execute_filters server rr l).1).app_iter =
      (if (execRun server l).filter_executed = true ∧ rr.isRequest = false then
        (execRun server l).app_iter
      else rr.app_iter) := by
  simp only [execute_filters]
  by_cases h1 : (execRun server l).on_other_server ≠ [] <;>
    by_cases h2 : (execRun server l).filter_executed <;>
      by_cases h3 : rr.isRequest <;> simp [h1, h2, h3]

theorem execute_filters_trace (server : String) (rr : ReqResp)
    (l : List (Nat × FilterData)) :
    (execute_filters server rr l).2 = (execRun server l).trace := by
  simp [execute_filters]

theorem execute_filters_content_length (server : String) (rr : ReqResp)
    (l : List (Nat × FilterData)) :
    ((execute_filters server rr l).1).content_length = rr.content_length ∧
    ((execute_filters server rr l).1).isRequest = rr.isRequest := by
  simp only [execute_filters]
  by_cases h1 : (execRun server l).on_other_server ≠ [] <;>
    by_cases h2 : (execRun server l).filter_executed <;>
      by_cases h3 : rr.isRequest <;> simp [h1, h2, h3]

/-! ### Error propagation through the fallible-engine loop -/

theorem execLoopE_error {ε : Type}
    (engine : FilterData → FStream → Except ε FStream) (server : String)
    (l : List (Nat × FilterData)) :
    ∀ (ks : List Nat) (st : ExecState) (e : ε),
    execLoopE engine server l ks st = Except.error e →
    ∃ (key : Nat) (fd : FilterData) (s : FStream),
      dictGet key l = some fd ∧ fd.execution_server = server ∧
        engine fd s = Except.error e
  | [], st, e, h => by simp [execLoopE] at h
  | key :: ks, st, e, h => by
    cases hd : dictGet key l with
    | none =>
      simp only [execLoopE, hd] at h
      exact execLoopE_error engine server l ks st e h
    | some fd =>
      simp only [execLoopE, hd] at h
      by_cases hs : fd.execution_server = server
      · rw [if_pos hs] at h
        cases heng : engine fd st.app_iter with
        | ok out =>
          rw [heng] at h
          exact execLoopE_error engine server l ks _ e h
        | error e2 =>
          rw [heng] at h
          simp only [Except.error.injEq] at h
          exact ⟨key, fd, st.app_iter, hd, hs, by rw [heng, h]⟩
      · rw [if_neg hs] at h
        exact execLoopE_error engine server l ks _ e h

/-! ### Claim theorems -/

/-- C1: for every filter set and tier context passed to `execute_filters`,
the entries executed locally (the engine-invocation trace) and the entries
placed in the delegation signal (`on_other_server`) partition the input set:
their union is a permutation of the full input set (no filter dropped),
every executed entry is owned by the local tier and every delegated entry by
the other tier, the two sets are disjoint, and the delegated entries are
exactly what the outgoing `CRYSTAL-FILTERS` header carries. -/
theorem execute_filters_partitions (server : String) (rr : ReqResp)
    (l : List (Nat × FilterData)) (hnd : (l.map Prod.fst).Nodup) :
    ((execRun server l).trace ++ (execRun server l).on_other_server).Perm l ∧
    (∀ kf ∈ (execRun server l).trace, kf.2.execution_server = server) ∧
    (∀ kf ∈ (execRun server l).on_other_server,
      kf.2.execution_server ≠ server) ∧
    (∀ kf : Nat × FilterData,
      ¬(kf ∈ (execRun server l).trace ∧
        kf ∈ (execRun server l).on_other_server)) ∧
    ((execRun server l).on_other_server ≠ [] →
      headerGet ((execute_filters server rr l).1).headers "CRYSTAL-FILTERS" =
        some (encodeDelegation ((execRun server l).on_other_server))) := by
  have htr : (execRun server l).trace =
      (entries l (sortedKeys l)).filter (isLocal server) := by
    rw [execRun_eq]
  have hon : (execRun server l).on_other_server =
      (entries l (sortedKeys l)).filter (fun kf => !isLocal server kf) := by
    rw [execRun_eq]
  refine ⟨?_, ?_, ?_, ?_, ?_⟩
  · rw [htr, hon]
    exact (List.filter_append_perm _ _).trans (entries_sortedKeys_perm hnd)
  · intro kf hm
    rw [htr] at hm
    have h2 := (List.mem_filter.1 hm).2
    simpa [isLocal] using h2
  · intro kf hm
    rw [hon] at hm
    have h2 := (List.mem_filter.1 hm).2
    simpa [isLocal] using h2
  · rintro kf ⟨h1, h2⟩
    rw [htr] at h1
    rw [hon] at h2
    have e1 := (List.mem_filter.1 h1).2
    have e2 := (List.mem_filter.1 h2).2
    rw [e1] at e2
    simp at e2
  · intro hne
    rw [execute_filters_headers, if_pos hne]
    exact headerGet_setHeader_self _ _ _

/-- Witness for C1 at a concrete two-filter set (one local, one remote). -/
theorem execute_filters_partitions_witness :
    ((execRun "proxy" [(2, exFilterRemote), (1, exFilterLocal)]).trace ++
      (execRun "proxy"
        [(2, exFilterRemote), (1, exFilterLocal)]).on_other_server).Perm
      [(2, exFilterRemote), (1, exFilterLocal)] ∧
    (∀ kf ∈ (execRun "proxy" [(2, exFilterRemote), (1, exFilterLocal)]).trace,
      kf.2.execution_server = "proxy") ∧
    (∀ kf ∈ (execRun "proxy"
        [(2, exFilterRemote), (1, exFilterLocal)]).on_other_server,
      kf.2.execution_server ≠ "proxy") ∧
    (∀ kf : Nat × FilterData,
      ¬(kf ∈ (execRun "proxy" [(2, exFilterRemote), (1, exFilterLocal)]).trace ∧
        kf ∈ (execRun "proxy"
          [(2, exFilterRemote), (1, exFilterLocal)]).on_other_server)) ∧
    ((execRun "proxy" [(2, exFilterRemote), (1, exFilterLocal)]).on_other_server
        ≠ [] →
      headerGet ((execute_filters "proxy" exReq
          [(2, exFilterRemote), (1, exFilterLocal)]).1).headers
          "CRYSTAL-FILTERS" =
        some (encodeDelegation ((execRun "proxy"
          [(2, exFilterRemote), (1, exFilterLocal)]).on_other_server))) :=
  execute_filters_partitions "proxy" exReq
    [(2, exFilterRemote), (1, exFilterLocal)] (by decide)

/-- C2: for every filter set with distinct ordering keys, the engine
invocations of `execute_filters` are the local-tier subset in strictly
ascending key order, and the whole run is independent of the iteration order
of the input mapping (any permutation of the association list gives the same
result). -/
theorem execute_filters_ordering (server : String)
    (l : List (Nat × FilterData)) (hnd : (l.map Prod.fst).Nodup) :
    List.Pairwise (fun a b : Nat × FilterData => a.1 < b.1)
      (execRun server l).trace ∧
    ((execRun server l).trace).Perm (l.filter (isLocal server)) ∧
    (∀ l2 : List (Nat × FilterData), l2.Perm l →
      execRun server l2 = execRun server l) := by
  have htr : (execRun server l).trace =
      (entries l (sortedKeys l)).filter (isLocal server) := by
    rw [execRun_eq]
  refine ⟨?_, ?_, ?_⟩
  · rw [htr]
    exact trace_pairwise hnd
  · rw [htr]
    exact List.Perm.filter _ (entries_sortedKeys_perm hnd)
  · intro l2 hp
    exact execRun_eq_of_perm (((hp.map Prod.fst).nodup_iff).2 hnd) hp

/-- Witness for C2 at a concrete two-filter set given in descending key
order. -/
theorem execute_filters_ordering_witness :
    List.Pairwise (fun a b : Nat × FilterData => a.1 < b.1)
      (execRun "proxy" [(2, exFilterLocal2), (1, exFilterLocal)]).trace ∧
    ((execRun "proxy" [(2, exFilterLocal2), (1, exFilterLocal)]).trace).Perm
      ([(2, exFilterLocal2), (1, exFilterLocal)].filter (isLocal "proxy")) ∧
    (∀ l2 : List (Nat × FilterData),
      l2.Perm [(2, exFilterLocal2), (1, exFilterLocal)] →
      execRun "proxy" l2 =
        execRun "proxy" [(2, exFilterLocal2), (1, exFilterLocal)]) :=
  execute_filters_ordering "proxy" [(2, exFilterLocal2), (1, exFilterLocal)]
    (by decide)

/-- C7 (amended): when an engine invocation raises during `execute_filters`,
the loop stops and the error value reaches the caller exactly as the engine
produced it — the controller neither catches, suppresses, retries, nor wraps
it.  In particular the propagated value is the engine's own error: the code
defines no `FilterExecutionError` and attaches no filter identity of its
own (see the counterexample theorem). -/
theorem engine_error_propagates {ε : Type}
    (engine : FilterData → FStream → Except ε FStream) (server : String)
    (rr : ReqResp) (l : List (Nat × FilterData)) (e : ε)
    (h : execute_filters_exc engine server rr l = Except.error e) :
    ∃ (key : Nat) (fd : FilterData) (s : FStream),
      dictGet key l = some fd ∧ fd.execution_server = server ∧
        engine fd s = Except.error e := by
  simp only [execute_filters_exc] at h
  cases hr : execRunE engine server l with
  | error e2 =>
    rw [hr] at h
    simp only [Except.error.injEq] at h
    subst h
    exact execLoopE_error engine server l _ _ _ hr
  | ok st =>
    rw [hr] at h
    simp at h

/-- Witness for C7 at a concrete failing engine. -/
theorem engine_error_propagates_witness :
    ∃ (key : Nat) (fd : FilterData) (s : FStream),
      dictGet key [(1, exFilterLocal)] = some fd ∧
        fd.execution_server = "proxy" ∧
        exFailEngine fd s = Except.error "boom" :=
  engine_error_propagates exFailEngine "proxy" exReq [(1, exFilterLocal)]
    "boom" rfl

/-- C7 counterexample to the claim as stated: two filters with different
entry points (`main`), failing with the same engine error, produce identical
propagated errors, so the propagated failure is not a distinguishable
`FilterExecutionError` carrying the failing filter's entry point — it is
whatever the engine raised, unmodified. -/
theorem engine_error_counterexample :
    execute_filters_exc exFailEngine "proxy" exReq [(1, exFilterLocal)] =
      Except.error "boom" ∧
    execute_filters_exc exFailEngine "proxy" exReq [(1, exFilterLocal2)] =
      Except.error "boom" ∧
    exFilterLocal.main ≠ exFilterLocal2.main :=
  ⟨rfl, rfl, by decide⟩

/-- C3: for every PRE_PUT hook invocation whose matching filter subset is
non-empty, after the hook runs the outgoing request carries no content
length and has Transfer-Encoding set to chunked; for an empty matching
subset the handler — in particular the original content length — is left
untouched. -/
theorem pre_put_content_length (h : Handler)
    (filter_list : List (Nat × FilterData)) :
    (filter_list.filter (fun kf => kf.2.when == "on_pre_put") ≠ [] →
      (apply_filters_on_pre_put h filter_list).request.content_length = none ∧
      headerGet (apply_filters_on_pre_put h filter_list).request.headers
        "Transfer-Encoding" = some (HeaderVal.str "chunked")) ∧
    (filter_list.filter (fun kf => kf.2.when == "on_pre_put") = [] →
      apply_filters_on_pre_put h filter_list = h) := by
  constructor
  · intro hne
    constructor
    · simp [apply_filters_on_pre_put, hne]
    · simp [apply_filters_on_pre_put, hne, headerGet_setHeader_self]
  · intro he
    simp [apply_filters_on_pre_put, he]

/-- Witness for C3: a one-filter PRE_PUT subset scrubs the content length
and sets chunked encoding; the empty set leaves the handler unchanged. -/
theorem pre_put_content_length_witness :
    ((apply_filters_on_pre_put exHandler
        [(1, exFilterLocal)]).request.content_length = none ∧
      headerGet (apply_filters_on_pre_put exHandler
          [(1, exFilterLocal)]).request.headers "Transfer-Encoding" =
        some (HeaderVal.str "chunked")) ∧
    apply_filters_on_pre_put exHandler [] = exHandler :=
  ⟨(pre_put_content_length exHandler [(1, exFilterLocal)]).1 (by decide),
   (pre_put_content_length exHandler []).2 rfl⟩

/-- C4: in every call to `execute_filters`, some local filter executed iff
the invocation trace is non-empty, and the final `app_iter` is the composed
chain of the traced engine outputs; when at least one local filter executed,
a request-shaped object gets its input stream (`wsgi.input`) replaced by
that composed output with its output iterator untouched, and a
response-shaped object gets its output iterator (`app_iter`) replaced with
its input stream untouched; when none executed, neither stream changes. -/
theorem execute_filters_body_replacement (server : String) (rr : ReqResp)
    (l : List (Nat × FilterData)) :
    ((execRun server l).filter_executed = true ↔
      (execRun server l).trace ≠ []) ∧
    (execRun server l).app_iter =
      chainStreams FStream.noInput (execRun server l).trace ∧
    ((execRun server l).trace ≠ [] →
      (rr.isRequest = true →
        ((execute_filters server rr l).1).wsgi_input =
          (execRun server l).app_iter ∧
        ((execute_filters server rr l).1).app_iter = rr.app_iter) ∧
      (rr.isRequest = false →
        ((execute_filters server rr l).1).app_iter =
          (execRun server l).app_iter ∧
        ((execute_filters server rr l).1).wsgi_input = rr.wsgi_input)) ∧
    ((execRun server l).trace = [] →
      ((execute_filters server rr l).1).wsgi_input = rr.wsgi_input ∧
      ((execute_filters server rr l).1).app_iter = rr.app_iter) := by
  have hfe : (execRun server l).filter_executed =
      !((execRun server l).trace).isEmpty := by
    rw [execRun_eq]
  refine ⟨?_, ?_, ?_, ?_⟩
  · rw [hfe]
    cases (execRun server l).trace <;> simp
  · rw [execRun_eq]
  · intro htr
    have hfe2 : (execRun server l).filter_executed = true := by
      rw [hfe]
      cases hh : (execRun server l).trace
      · exact absurd hh htr
      · simp
    constructor
    · intro hreq
      constructor
      · rw [execute_filters_wsgi_input]
        simp [hfe2, hreq]
      · rw [execute_filters_app_iter]
        simp [hreq]
    · intro hreq
      constructor
      · rw [execute_filters_app_iter]
        simp [hfe2, hreq]
      · rw [execute_filters_wsgi_input]
        simp [hreq]
  · intro htr
    have hfe2 : (execRun server l).filter_executed = false := by
      rw [hfe, htr]
      rfl
    constructor
    · rw [execute_filters_wsgi_input]
      simp [hfe2]
    · rw [execute_filters_app_iter]
      simp [hfe2]

/-- Witness for C4: one local filter on a request replaces `wsgi.input`; on
a response it replaces `app_iter`; with no matching local execution neither
reference moves. -/
theorem execute_filters_body_replacement_witness :
    (((execute_filters "proxy" exReq [(1, exFilterLocal)]).1).wsgi_input =
        (execRun "proxy" [(1, exFilterLocal)]).app_iter ∧
      ((execute_filters "proxy" exReq [(1, exFilterLocal)]).1).app_iter =
        exReq.app_iter) ∧
    (((execute_filters "proxy" exResp [(1, exFilterLocal)]).1).app_iter =
        (execRun "proxy" [(1, exFilterLocal)]).app_iter ∧
      ((execute_filters "proxy" exResp [(1, exFilterLocal)]).1).wsgi_input =
        exResp.wsgi_input) ∧
    (((execute_filters "proxy" exReq []).1).wsgi_input = exReq.wsgi_input ∧
      ((execute_filters "proxy" exReq []).1).app_iter = exReq.app_iter) :=
  ⟨((execute_filters_body_replacement "proxy" exReq
      [(1, exFilterLocal)]).2.2.1 (by decide)).1 rfl,
   ((execute_filters_body_replacement "proxy" exResp
      [(1, exFilterLocal)]).2.2.1 (by decide)).2 rfl,
   (execute_filters_body_replacement "proxy" exReq []).2.2.2 (by decide)⟩

/-- C5: a request whose container is one of the three configured reserved
containers is never eligible, and a request with an empty object component
is never eligible, for every tier and account-enabled combination. -/
theorem eligibility_exclusions (h : Handler) (account_storlet_enabled : Bool) :
    (h.container ∈ sds_containers h →
      is_crystal_valid_request h account_storlet_enabled = false) ∧
    (h.obj = "" →
      is_crystal_valid_request h account_storlet_enabled = false) := by
  constructor
  · intro hm
    simp [is_crystal_valid_request, hm]
  · intro ho
    simp [is_crystal_valid_request, ho]

/-- Witness for C5: a reserved-container request on the proxy tier with
filtering enabled, and an object-less request on the object tier, are both
rejected. -/
theorem eligibility_exclusions_witness :
    is_crystal_valid_request exHandlerReserved true = false ∧
    is_crystal_valid_request exHandlerNoObj false = false :=
  ⟨(eligibility_exclusions exHandlerReserved true).1 (by decide),
   (eligibility_exclusions exHandlerNoObj false).2 rfl⟩

/-- C6: encoding the delegation map with key `5` holding an object-tier
filter into the `CRYSTAL-FILTERS` header on the proxy tier, then decoding on
the peer, yields a filter set containing exactly that filter at key `5`. -/
theorem delegation_round_trip :
    headerGet ((execute_filters "proxy" exReq
        [(5, exFilterRemote)]).1).headers "CRYSTAL-FILTERS" =
      some (encodeDelegation [(5, exFilterRemote)]) ∧
    decodeDelegation (encodeDelegation [(5, exFilterRemote)]) =
      some [(5, exFilterRemote)] := by
  constructor
  · rfl
  · rfl

/-- C8 (evaluation at the failing input): assigning a request with an
unparseable path raises `NotCrystalRequest`, yet leaves the handler
partially updated — `_request` already holds the new request while the
parsed vars still hold the previous request's values — so the
request/parsed-fields binding is not atomic on parse failure. -/
theorem request_setter_partial_state :
    (request_setter parseVacoEx exVars exBadReq).2 = true ∧
    (request_setter parseVacoEx exVars exBadReq).1._request = exBadReq ∧
    (request_setter parseVacoEx exVars exBadReq).1._account = "AUTH_a" ∧
    exBadReq ≠ exVars._request :=
  ⟨rfl, rfl, rfl, by decide⟩

/-- C9: an empty filter set at any of the three lifecycle points performs no
engine invocation (empty trace), mutates no header or stream, and returns
the handler, response, or request/response object unchanged. -/
theorem empty_filter_set_identity (h : Handler) (resp : ReqResp)
    (server : String) (rr : ReqResp) :
    apply_filters_on_pre_get h [] = h ∧
    apply_filters_on_post_get h resp [] = resp ∧
    apply_filters_on_pre_put h [] = h ∧
    execute_filters server rr [] = (rr, []) :=
  ⟨rfl, rfl, rfl, rfl⟩

/-- C10: a non-empty PRE_PUT subset consisting entirely of filters owned by
the other tier still removes the request's content length and sets chunked
transfer encoding, even though no filter executes locally (empty trace) and
both body streams are unchanged. -/
theorem pre_put_all_remote (h : Handler)
    (filter_list : List (Nat × FilterData))
    (hne : filter_list.filter (fun kf => kf.2.when == "on_pre_put") ≠ [])
    (hrem : ∀ kf ∈ filter_list.filter (fun kf => kf.2.when == "on_pre_put"),
      kf.2.execution_server ≠ h.server) :
    (apply_filters_on_pre_put h filter_list).request.content_length = none ∧
    headerGet (apply_filters_on_pre_put h filter_list).request.headers
      "Transfer-Encoding" = some (HeaderVal.str "chunked") ∧
    (execRun h.server
      (filter_list.filter (fun kf => kf.2.when == "on_pre_put"))).trace = [] ∧
    (apply_filters_on_pre_put h filter_list).request.wsgi_input =
      h.request.wsgi_input ∧
    (apply_filters_on_pre_put h filter_list).request.app_iter =
      h.request.app_iter := by
  have htr : (execRun h.server
      (filter_list.filter (fun kf => kf.2.when == "on_pre_put"))).trace = [] := by
    rw [execRun_eq]
    refine List.filter_eq_nil_iff.2 ?_
    intro kf hkf
    have hr := hrem kf (entries_mem hkf)
    simp [isLocal, hr]
  have hfe : (execRun h.server
      (filter_list.filter (fun kf => kf.2.when == "on_pre_put"))).filter_executed
      = false := by
    have h1 : (execRun h.server
        (filter_list.filter (fun kf => kf.2.when == "on_pre_put"))).filter_executed =
        !((execRun h.server
          (filter_list.filter (fun kf => kf.2.when == "on_pre_put"))).trace).isEmpty := by
      rw [execRun_eq]
    rw [h1, htr]
    rfl
  refine ⟨?_, ?_, htr, ?_, ?_⟩
  · simp [apply_filters_on_pre_put, hne]
  · simp [apply_filters_on_pre_put, hne, headerGet_setHeader_self]
  · simp only [apply_filters_on_pre_put, if_pos hne]
    rw [execute_filters_wsgi_input]
    simp [hfe]
  · simp only [apply_filters_on_pre_put, if_pos hne]
    rw [execute_filters_app_iter]
    simp [hfe]

/-- Witness for C10: one remote-owned PRE_PUT filter on a proxy handler. -/
theorem pre_put_all_remote_witness :
    (apply_filters_on_pre_put exHandler
        [(3, exFilterRemote)]).request.content_length = none ∧
    headerGet (apply_filters_on_pre_put exHandler
        [(3, exFilterRemote)]).request.headers "Transfer-Encoding" =
      some (HeaderVal.str "chunked") ∧
    (execRun exHandler.server
      ([(3, exFilterRemote)].filter
        (fun kf => kf.2.when == "on_pre_put"))).trace = [] ∧
    (apply_filters_on_pre_put exHandler
        [(3, exFilterRemote)]).request.wsgi_input =
      exHandler.request.wsgi_input ∧
    (apply_filters_on_pre_put exHandler
        [(3, exFilterRemote)]).request.app_iter =
      exHandler.request.app_iter :=
  pre_put_all_remote exHandler [(3, exFilterRemote)] (by decide) (by decide)

end CrystalFilter
